import Mathlib

/-!
Shallow embedding of the backtest simulation core of the `optionsbot`
repository (`Options_Scanner/backtesting/backtest_engine.py` and
`Options_Scanner/backtesting/performance_metrics.py`).

Monetary amounts and prices are modelled as exact rationals (`ℚ`); Python's
`int(...)` truncation is modelled by `pyTrunc`; dates are modelled as
integers (day ordinals), so `datetime.strptime(s) <= date` becomes `≤` on
`Int`.  Values that the Python/numpy code can turn into non-finite floats
(NaN / ±inf) are modelled explicitly: `Option` fields for absent dict keys,
a `PFloat` type for pandas series elements, and a `FloatClass`
classification for the Sharpe/Sortino results (whose finite values involve
square roots and are therefore classified rather than computed: the spec
claims only concern the cases `0` / NaN / non-finite).
-/

/-- Python `int(q)`: truncation toward zero. -/
def pyTrunc (q : ℚ) : Int :=
  if 0 ≤ q then Int.floor q else Int.ceil q

/-- A position dict as built by `BacktestEngine.open_position`
(`backtest_engine.py` lines 285-300).  Exit fields are `Option`s standing
for Python `None` until the position is closed. -/
structure Position where
  symbol : String
  option_type : String
  strike : ℚ
  expiration : Int
  entry_date : Int
  entry_price : ℚ
  contracts : Int
  position_cost : ℚ
  current_price : ℚ
  exit_date : Option Int
  exit_price : Option ℚ
  exit_reason : Option String
  profit_loss : ℚ
  profit_loss_pct : ℚ
  deriving DecidableEq, Repr

/-- One quote of a day's option chain, with the fields `close_position`
and `manage_existing_positions` read.  `last`/`mid` are `Option`s because
the code accesses them with `.get(key, 0)` / `.get(key)`. -/
structure OptionQuote where
  option_type : String
  strike : ℚ
  expiration : Int
  last : Option ℚ
  mid : Option ℚ
  deriving DecidableEq, Repr

/-- The per-day market data: `market_data["options_chains"]`, a map from
symbol to that symbol's option chain (symbols whose fetch failed are simply
absent, as in `fetch_market_data`). -/
abbrev MarketData := List (String × List OptionQuote)

/-- An entry signal as consumed by `open_position`. -/
structure Signal where
  symbol : String
  option_type : String
  strike : ℚ
  expiration : Int
  price : ℚ
  deriving DecidableEq, Repr

/-- Engine configuration (constructor arguments of `BacktestEngine`). -/
structure BacktestConfig where
  initial_capital : ℚ
  position_size_pct : ℚ
  commission_per_contract : ℚ
  slippage_pct : ℚ
  deriving DecidableEq, Repr

/-- The mutable engine state (`current_capital`, `open_positions`,
`closed_trades`). -/
structure EngineState where
  current_capital : ℚ
  open_positions : List Position
  closed_trades : List Position
  deriving DecidableEq, Repr

/-- State right after `__init__` / the `run` re-initialisation. -/
def initState (cfg : BacktestConfig) : EngineState :=
  { current_capital := cfg.initial_capital
    open_positions := []
    closed_trades := [] }

/-- Entry fill price with slippage (`backtest_engine.py` line 271):
call buys pay `price * (1 + slippage_pct)`, everything else (puts) pays
`price * (1 - slippage_pct)`. -/
def entrySlippagePrice (cfg : BacktestConfig) (option_type : String) (price : ℚ) : ℚ :=
  if option_type = "call" then price * (1 + cfg.slippage_pct)
  else price * (1 - cfg.slippage_pct)

/-- Embedding of `BacktestEngine.open_position` (lines 247-313).  The two rejection
paths (`contracts < 1`) return the state unchanged.  A signal with
`price = 0` raises `ZeroDivisionError` in Python, caught by the enclosing
`except`, leaving the state unchanged; in `ℚ` the division yields `0`
contracts and takes the same no-op branch. -/
def open_position (cfg : BacktestConfig) (sig : Signal) (date : Int)
    (st : EngineState) : EngineState :=
  let entry_price := sig.price
  let position_size_dollar := st.current_capital * cfg.position_size_pct
  let contracts := pyTrunc (position_size_dollar / (entry_price * 100))
  if contracts < 1 then st
  else
    let slippage_adjusted_price := entrySlippagePrice cfg sig.option_type entry_price
    let position_cost := slippage_adjusted_price * 100 * contracts
      + cfg.commission_per_contract * contracts
    let mk : Int → ℚ → EngineState := fun n cost =>
      { current_capital := st.current_capital - cost
        open_positions := st.open_positions ++
          [{ symbol := sig.symbol
             option_type := sig.option_type
             strike := sig.strike
             expiration := sig.expiration
             entry_date := date
             entry_price := slippage_adjusted_price
             contracts := n
             position_cost := cost
             current_price := slippage_adjusted_price
             exit_date := none
             exit_price := none
             exit_reason := none
             profit_loss := 0
             profit_loss_pct := 0 }]
        closed_trades := st.closed_trades }
    if position_cost > st.current_capital then
      let contracts2 := pyTrunc ((st.current_capital - cfg.commission_per_contract)
        / (slippage_adjusted_price * 100))
      if contracts2 < 1 then st
      else
        mk contracts2 (slippage_adjusted_price * 100 * contracts2
          + cfg.commission_per_contract * contracts2)
    else
      mk contracts position_cost

/-- Locate the matching contract in a symbol's chain
(the `for option in ... / break` loops at lines 226-231 and 337-342). -/
def findQuote (chain : List OptionQuote) (p : Position) : Option OptionQuote :=
  chain.find? (fun o =>
    o.option_type = p.option_type ∧ o.strike = p.strike ∧ o.expiration = p.expiration)

/-- The exit price used by `close_position` (lines 333-342): default to the
position's last known `current_price`; if the symbol's chain is present and
contains the matching contract, use `option.get("last", 0) or
option.get("mid", 0)` (Python `or`: the `last` value if truthy, i.e.
non-zero, else the `mid` value, else `0`). -/
def exitBasePrice (md : MarketData) (p : Position) : ℚ :=
  match List.lookup p.symbol md with
  | none => p.current_price
  | some chain =>
    match findQuote chain p with
    | none => p.current_price
    | some q =>
      let l := (q.last).getD 0
      if l ≠ 0 then l else (q.mid).getD 0

/-- Exit fill price with slippage (line 345): call sells receive
`price * (1 - slippage_pct)`, puts receive `price * (1 + slippage_pct)`. -/
def exitSlippagePrice (cfg : BacktestConfig) (option_type : String) (price : ℚ) : ℚ :=
  if option_type = "call" then price * (1 - cfg.slippage_pct)
  else price * (1 + cfg.slippage_pct)

/-- Sale proceeds (line 348):
`fill * 100 * contracts - commission_per_contract * contracts`. -/
def proceedsOf (cfg : BacktestConfig) (p : Position) (fill : ℚ) : ℚ :=
  fill * 100 * p.contracts - cfg.commission_per_contract * p.contracts

/-- The closed-trade record produced by `close_position` (lines 344-357):
the position dict updated in place with exit date/price/reason and P/L. -/
def closedTradeOf (cfg : BacktestConfig) (md : MarketData) (date : Int)
    (reason : String) (p : Position) : Position :=
  let fill := exitSlippagePrice cfg p.option_type (exitBasePrice md p)
  let proceeds := proceedsOf cfg p fill
  let profit_loss := proceeds - p.position_cost
  let profit_loss_pct :=
    if p.position_cost > 0 then profit_loss / p.position_cost * 100 else 0
  { p with
    exit_date := some date
    exit_price := some fill
    exit_reason := some reason
    profit_loss := profit_loss
    profit_loss_pct := profit_loss_pct }

/-- Embedding of `BacktestEngine.close_position` (lines 315-374): compute the fill from
the day's snapshot (falling back to the last known price), append the
updated dict to `closed_trades`, remove it from `open_positions` (the
Python identity-based removal `[p for p in ... if p != position]` removes
exactly the mutated element, i.e. the one occurrence of `p`), and credit
the proceeds to capital. -/
def close_position (cfg : BacktestConfig) (md : MarketData) (date : Int)
    (reason : String) (p : Position) (st : EngineState) : EngineState :=
  let fill := exitSlippagePrice cfg p.option_type (exitBasePrice md p)
  let proceeds := proceedsOf cfg p fill
  { current_capital := st.current_capital + proceeds
    open_positions := st.open_positions.erase p
    closed_trades := st.closed_trades ++ [closedTradeOf cfg md date reason p] }

/-- Python truthiness of an optional string (`exit_signal or "expiration"`):
`None` and the empty string are falsy. -/
def truthyStr : Option String → Bool
  | none => false
  | some s => s ≠ ""

/-- Python `exit_signal or "expiration"` (line 241). -/
def pyOrStr (x : Option String) (d : String) : String :=
  match x with
  | none => d
  | some s => if s = "" then d else s

/-- The per-position body of the collection loop of
`manage_existing_positions` (lines 213-241): `none` when the position is
skipped (its symbol has no chain today, or its contract is missing from
the chain, or no exit trigger fires), otherwise the position paired with
its close reason — the strategy's reason when truthy, else `expiration`. -/
def exitCheckEntry (checkExit : Position → OptionQuote → Int → Option String)
    (md : MarketData) (date : Int) (p : Position) : Option (Position × String) :=
  match List.lookup p.symbol md with
  | none => none
  | some chain =>
    match findQuote chain p with
    | none => none
    | some q =>
      let exit_signal := checkExit p q date
      if truthyStr exit_signal ∨ p.expiration ≤ date then
        some (p, pyOrStr exit_signal ("expiration"))
      else none

/-- Embedding of `BacktestEngine.manage_existing_positions` (lines 202-245): collect the
positions to close, then close each in order.  `checkExit` is the
pluggable `strategy.check_exit_criteria`. -/
def manage_existing_positions
    (checkExit : Position → OptionQuote → Int → Option String)
    (cfg : BacktestConfig) (md : MarketData) (date : Int)
    (st : EngineState) : EngineState :=
  let positions_to_close : List (Position × String) :=
    st.open_positions.filterMap (exitCheckEntry checkExit md date)
  positions_to_close.foldl
    (fun s pr => close_position cfg md date pr.2 pr.1 s) st

/-!
Embedding of `performance_metrics.py`.

Pandas/numpy float series can hold non-finite values; an element is
modelled as a `PFloat`.  The Sharpe/Sortino ratios multiply a rational
mean/deviation quotient by `sqrt(252)`; their finite values are
irrational, so the embedding classifies the computed float (exact zero,
NaN, infinite, finite non-zero), which is all the spec talks about.
Metrics of the source that no claim mentions and whose values are
irrational or date-valued (`annualized_return_pct`,
`max_drawdown_duration`, `avg_trade_duration`) are not embedded.
-/

/-- A pandas float value: NaN, plus or minus infinity, or a finite value. -/
inductive PFloat where
  | nan : PFloat
  | pinf : PFloat
  | ninf : PFloat
  | fin : ℚ → PFloat
  deriving DecidableEq, Repr

/-- Pandas `pct_change` of one consecutive pair `(a, b)`: `(b - a) / a`, with
numpy float semantics at `a = 0` (`0/0` is NaN, `b/0` is ±inf). -/
def pctChangeF (a b : ℚ) : PFloat :=
  if a = 0 then
    (if b - a = 0 then .nan else if b - a > 0 then .pinf else .ninf)
  else .fin ((b - a) / a)

/-- The series `df['total_equity'].pct_change()` followed by `.dropna()`: the leading
NaN is gone, leaving one entry per consecutive pair; `.dropna()` also drops
NaN entries (but keeps infinities, as pandas does). -/
def dailyReturnsOf (eqs : List ℚ) : List PFloat :=
  (List.zipWith pctChangeF eqs eqs.tail).filter (· ≠ PFloat.nan)

/-- Whether a series element compares `< 0` under numpy semantics
(`NaN < 0` is false). -/
def PFloat.isNeg : PFloat → Bool
  | .ninf => true
  | .fin q => q < 0
  | _ => false

def PFloat.isNonFin : PFloat → Bool
  | .fin _ => false
  | _ => true

def PFloat.toQ : PFloat → Option ℚ
  | .fin q => some q
  | _ => none

/-- Pandas `Series.mean()` as a `PFloat`: NaN on an empty series or one holding a
NaN or both infinities; the matching infinity if only one sign of infinity
occurs; otherwise the exact rational mean. -/
def meanPF (l : List PFloat) : PFloat :=
  if l.length = 0 then .nan
  else if l.any (· = .nan) then .nan
  else if l.any (· = .pinf) then (if l.any (· = .ninf) then .nan else .pinf)
  else if l.any (· = .ninf) then .ninf
  else .fin ((l.filterMap PFloat.toQ).sum / (l.length : ℚ))

/-- Classification of `Series.std()` (sample standard deviation,
`ddof = 1`): NaN for fewer than two points or any non-finite point,
zero when the sum of squared deviations vanishes, positive otherwise. -/
inductive StdC where
  | nanS : StdC
  | zeroS : StdC
  | posS : StdC
  deriving DecidableEq, Repr

def stdClassOf (l : List PFloat) : StdC :=
  if l.length < 2 then .nanS
  else if l.any PFloat.isNonFin then .nanS
  else
    let qs := l.filterMap PFloat.toQ
    let m := qs.sum / (qs.length : ℚ)
    if (qs.map (fun x => (x - m) ^ 2)).sum = 0 then .zeroS else .posS

/-- Classification of a computed float metric. -/
inductive FloatClass where
  | zero : FloatClass
  | nan : FloatClass
  | inf : FloatClass
  | nonzero : FloatClass
  deriving DecidableEq, Repr

/-- The Sharpe-ratio computation of `performance_metrics.py` lines 51-56:
initialised to `0`; for two or more equity points with at least one
(non-NaN) daily return it becomes
`sqrt(252) * daily_returns.mean() / daily_returns.std()` — NaN when the
std is NaN or when mean and std are both zero, infinite when only the std
is zero, exactly zero when the mean is zero and the std positive. -/
def sharpeRatioClass (eqs : List ℚ) : FloatClass :=
  if eqs.length ≤ 1 then .zero
  else
    let daily_returns := dailyReturnsOf eqs
    if daily_returns.length = 0 then .zero
    else
      match stdClassOf daily_returns with
      | .nanS => .nan
      | .zeroS =>
        match meanPF daily_returns with
        | .fin m => if m = 0 then .nan else .inf
        | _ => .nan
      | .posS =>
        match meanPF daily_returns with
        | .fin m => if m = 0 then .zero else .nonzero
        | _ => .nan

/-- The Sortino-ratio computation of lines 58-66: initialised to `0`;
`downside_deviation` is the std of the strictly negative returns (or `0`
when there are none), and the ratio is only assigned when
`downside_deviation > 0` — which is false for NaN, so a NaN downside
deviation leaves the value `0`. -/
def sortinoRatioClass (eqs : List ℚ) : FloatClass :=
  if eqs.length ≤ 1 then .zero
  else
    let daily_returns := dailyReturnsOf eqs
    if daily_returns.length = 0 then .zero
    else
      let negative_returns := daily_returns.filter PFloat.isNeg
      let downside := if negative_returns.length = 0 then StdC.zeroS
        else stdClassOf negative_returns
      match downside with
      | .posS =>
        match meanPF daily_returns with
        | .fin m => if m = 0 then .zero else .nonzero
        | .nan => .nan
        | _ => .inf
      | _ => .zero

/-- The `cummax`-relative drawdowns (lines 69-70): running maximum carried in
`m`, each point contributing `(equity - cummax) / cummax`. -/
def ddFrom (m : ℚ) : List ℚ → List ℚ
  | [] => []
  | e :: rest => (e - max m e) / max m e :: ddFrom (max m e) rest

/-- Pandas `Series.min()` of a nonempty list (`0` for the empty list, unused). -/
def listMin : List ℚ → ℚ
  | [] => 0
  | [x] => x
  | x :: y :: rest => min x (listMin (y :: rest))

/-- Pandas `Series.max()` of a nonempty list. -/
def listMax : List ℚ → ℚ
  | [] => 0
  | [x] => x
  | x :: y :: rest => max x (listMax (y :: rest))

/-- Embedding of `max_drawdown = df['drawdown'].min() * 100` (line 71); `0` for an
empty equity curve (the `else` branch at line 101). -/
def maxDrawdownPctOf (eqs : List ℚ) : ℚ :=
  match eqs with
  | [] => 0
  | e :: rest => listMin (ddFrom e (e :: rest)) * 100

/-- Embedding of `max_consecutive_count` (`performance_metrics.py` lines 184-205). -/
def max_consecutive_count (results : List Int) (value : Int) : Int :=
  (results.foldl
    (fun acc result =>
      if result = value then (max acc.1 (acc.2 + 1), acc.2 + 1)
      else (acc.1, 0))
    ((0 : Int), (0 : Int))).1

/-- One entry of the engine's `equity_curve` (`track_equity`,
`backtest_engine.py` lines 388-393). -/
structure EquityPoint where
  date : Int
  capital : ℚ
  positions_value : ℚ
  total_equity : ℚ
  deriving DecidableEq, Repr

/-- The metric set of `calculate_performance_metrics` (the fields any
claim refers to; `profit_factor` is `none` for the float `inf` sentinel
produced when `gross_loss` is zero with at least one trade). -/
structure PerfMetrics where
  total_return_pct : ℚ
  sharpe_ratio_class : FloatClass
  sortino_ratio_class : FloatClass
  max_drawdown_pct : ℚ
  total_trades : Nat
  winning_trades : Nat
  losing_trades : Nat
  win_rate : ℚ
  avg_profit_pct : ℚ
  avg_profit_amount : ℚ
  profit_factor : Option ℚ
  max_consecutive_wins : Int
  max_consecutive_losses : Int
  max_profit_pct : ℚ
  max_loss_pct : ℚ
  deriving DecidableEq, Repr

/-- Embedding of `calculate_performance_metrics` (`performance_metrics.py` lines
9-181), restricted to the embedded metric fields. -/
def calculate_performance_metrics (initial_capital final_capital : ℚ)
    (equity_curve : List EquityPoint) (trades : List Position) : PerfMetrics :=
  let total_return := (final_capital - initial_capital) / initial_capital
  let eqs := equity_curve.map EquityPoint.total_equity
  let total_trades := trades.length
  let winning_trades := (trades.filter (fun t => t.profit_loss > 0)).length
  let losing_trades := (trades.filter (fun t => t.profit_loss ≤ 0)).length
  let gross_profit :=
    ((trades.filter (fun t => t.profit_loss > 0)).map Position.profit_loss).sum
  let gross_loss :=
    |((trades.filter (fun t => t.profit_loss ≤ 0)).map Position.profit_loss).sum|
  let results : List Int := trades.map (fun t => if t.profit_loss > 0 then 1 else 0)
  { total_return_pct := total_return * 100
    sharpe_ratio_class := sharpeRatioClass eqs
    sortino_ratio_class := sortinoRatioClass eqs
    max_drawdown_pct := maxDrawdownPctOf eqs
    total_trades := total_trades
    winning_trades := if total_trades > 0 then winning_trades else 0
    losing_trades := if total_trades > 0 then losing_trades else 0
    win_rate :=
      if total_trades > 0 then ((winning_trades : ℚ) / (total_trades : ℚ)) * 100 else 0
    avg_profit_pct :=
      if total_trades > 0 then
        (trades.map Position.profit_loss_pct).sum / (total_trades : ℚ)
      else 0
    avg_profit_amount :=
      if total_trades > 0 then
        (trades.map Position.profit_loss).sum / (total_trades : ℚ)
      else 0
    profit_factor :=
      if total_trades > 0 then
        (if gross_loss > 0 then some (gross_profit / gross_loss) else none)
      else some 0
    max_consecutive_wins :=
      if total_trades > 0 then max_consecutive_count results 1 else 0
    max_consecutive_losses :=
      if total_trades > 0 then max_consecutive_count results 0 else 0
    max_profit_pct :=
      if total_trades > 0 then listMax (trades.map Position.profit_loss_pct) else 0
    max_loss_pct :=
      if total_trades > 0 then listMin (trades.map Position.profit_loss_pct) else 0 }

/-!
Simulation traces.  `BTOp` is one ledger operation of the engine's day
loop: opening a position from a signal, or closing the `i`-th open
position against a day's market data (every call site of `close_position`
in the source passes a member of `open_positions`; an out-of-range index
is a no-op).
-/

inductive BTOp where
  | openOp : Signal → Int → BTOp
  | closeOp : Nat → MarketData → Int → String → BTOp

def applyOp (cfg : BacktestConfig) (st : EngineState) : BTOp → EngineState
  | .openOp sig date => open_position cfg sig date st
  | .closeOp i md date reason =>
    match st.open_positions[i]? with
    | some p => close_position cfg md date reason p st
    | none => st

/-- The engine state after initialization followed by a sequence of
ledger operations. -/
def runOps (cfg : BacktestConfig) (ops : List BTOp) : EngineState :=
  ops.foldl (applyOp cfg) (initState cfg)

/-- The conservation property the ledger actually maintains:
`current_capital + Σ(open position_cost) − Σ(closed profit_loss)` equals
the initial capital. -/
def conservedCapital (cfg : BacktestConfig) (st : EngineState) : Prop :=
  st.current_capital + (st.open_positions.map Position.position_cost).sum
    - (st.closed_trades.map Position.profit_loss).sum = cfg.initial_capital

/-!
Concrete instances used by the scenario claims.
-/

/-- The engine parameters of Scenario A: `initial_capital = 100000`,
`position_size_pct = 0.1`, `commission_per_contract = 0.65`,
`slippage_pct = 0.01`. -/
def cfgA : BacktestConfig :=
  { initial_capital := 100000
    position_size_pct := 1/10
    commission_per_contract := 13/20
    slippage_pct := 1/100 }

/-- The Scenario A entry signal: a call at price `2.00`. -/
def sigA : Signal :=
  { symbol := "SPY", option_type := "call", strike := 450, expiration := 30, price := 2 }

/-- The Scenario B market snapshot: the matching contract trades at
`last = 3.00`. -/
def mdA : MarketData :=
  [("SPY", [{ option_type := "call", strike := 450, expiration := 30,
              last := some 3, mid := none }])]

/-- The engine state after opening the Scenario A position. -/
def stOpen : EngineState := open_position cfgA sigA 0 (initState cfgA)

/-- The engine state after also closing that position at the Scenario B
snapshot. -/
def stClosed : EngineState :=
  runOps cfgA [.openOp sigA 0, .closeOp 0 mdA 5 ("profit_target")]

/-- Engine parameters exhibiting the unaffordable recompute: full position
sizing (`position_size_pct = 1`) with the default commission and
slippage. -/
def cfgX : BacktestConfig :=
  { initial_capital := 10033/50
    position_size_pct := 1
    commission_per_contract := 13/20
    slippage_pct := 1/100 }

/-- A call signal priced `100/101`, so that its slippage-adjusted price is
exactly `1.00`. -/
def sigX : Signal :=
  { symbol := "SPY", option_type := "call", strike := 450, expiration := 30,
    price := 100/101 }

/-- A closed trade carrying a given `profit_loss` (Scenario D cares about
nothing else). -/
def scenarioTrade (pl : ℚ) : Position :=
  { symbol := "SPY", option_type := "call", strike := 450, expiration := 30,
    entry_date := 0, entry_price := 1, contracts := 1, position_cost := 100,
    current_price := 1, exit_date := some 1, exit_price := some 1,
    exit_reason := some ("expiration"), profit_loss := pl, profit_loss_pct := pl }

/-- The Scenario D closed-trade list: `profit_loss` values `+100`, `−50`,
`−20` in close order. -/
def tradesD : List Position := [scenarioTrade 100, scenarioTrade (-50), scenarioTrade (-20)]

/-- An equity point whose `total_equity` is the given value. -/
def eqPt (d : Int) (v : ℚ) : EquityPoint :=
  { date := d, capital := v, positions_value := 0, total_equity := v }

def curveOnePt : List EquityPoint := [eqPt 0 100]

def curveConst2 : List EquityPoint := [eqPt 0 100, eqPt 1 100]

def curveConst3 : List EquityPoint := [eqPt 0 100, eqPt 1 100, eqPt 2 100]

/-- A strictly growing curve with identical daily returns (`+10%` each
day): zero return variance with non-zero mean. -/
def curveGeom : List EquityPoint := [eqPt 0 100, eqPt 1 110, eqPt 2 121]

/-- An already-expired open position used by the exit-trigger claims. -/
def posE : Position :=
  { symbol := "SPY", option_type := "call", strike := 450, expiration := 0,
    entry_date := -10, entry_price := 2, contracts := 10, position_cost := 2000,
    current_price := 2, exit_date := none, exit_price := none,
    exit_reason := none, profit_loss := 0, profit_loss_pct := 0 }

/-- A state holding only `posE`. -/
def stE : EngineState :=
  { current_capital := 98000, open_positions := [posE], closed_trades := [] }

/-- A quote matching `posE` whose `last` is present but zero and which has
no `mid` key. -/
def quoteZeroLast : OptionQuote :=
  { option_type := "call", strike := 450, expiration := 0, last := some 0, mid := none }

def mdZeroLast : MarketData := [("SPY", [quoteZeroLast])]

/-- A quote matching `posE` with a normal `last` price. -/
def quoteE : OptionQuote :=
  { option_type := "call", strike := 450, expiration := 0, last := some 3, mid := none }

def mdE : MarketData := [("SPY", [quoteE])]

/-!
Helper lemmas for capital conservation (claim C1).
-/

lemma sum_cost_erase (p : Position) (l : List Position) (h : p ∈ l) :
    ((l.erase p).map Position.position_cost).sum
      = (l.map Position.position_cost).sum - p.position_cost := by
  have hperm := List.perm_cons_erase h
  have hsum := (hperm.map Position.position_cost).sum_eq
  simp only [List.map_cons, List.sum_cons] at hsum
  linarith

lemma open_position_conserves (cfg : BacktestConfig) (sig : Signal) (date : Int)
    (st : EngineState) (h : conservedCapital cfg st) :
    conservedCapital cfg (open_position cfg sig date st) := by
  unfold conservedCapital at h ⊢
  simp only [open_position]
  split_ifs <;>
    first
      | exact h
      | (simp only [List.map_append, List.sum_append, List.map_cons, List.sum_cons,
          List.map_nil, List.sum_nil]
         linarith)

lemma close_position_conserves (cfg : BacktestConfig) (md : MarketData) (date : Int)
    (reason : String) (p : Position) (st : EngineState)
    (hmem : p ∈ st.open_positions) (h : conservedCapital cfg st) :
    conservedCapital cfg (close_position cfg md date reason p st) := by
  unfold conservedCapital at h ⊢
  simp only [close_position, closedTradeOf, List.map_append, List.sum_append,
    List.map_cons, List.sum_cons, List.map_nil, List.sum_nil]
  have hsum := sum_cost_erase p st.open_positions hmem
  rw [hsum]
  linarith

lemma applyOp_conserves (cfg : BacktestConfig) (st : EngineState) (op : BTOp)
    (h : conservedCapital cfg st) : conservedCapital cfg (applyOp cfg st op) := by
  cases op with
  | openOp sig date => exact open_position_conserves cfg sig date st h
  | closeOp i md date reason =>
    simp only [applyOp]
    cases hg : st.open_positions[i]? with
    | none => exact h
    | some p =>
      have hmem : p ∈ st.open_positions := by
        obtain ⟨hlt, rfl⟩ := List.getElem?_eq_some.mp hg
        exact List.getElem_mem hlt
      exact close_position_conserves cfg md date reason p st hmem h

lemma foldOps_conserves (cfg : BacktestConfig) :
    ∀ (ops : List BTOp) (st : EngineState), conservedCapital cfg st →
      conservedCapital cfg (ops.foldl (applyOp cfg) st)
  | [], _, h => h
  | op :: ops, st, h =>
    foldOps_conserves cfg ops (applyOp cfg st op) (applyOp_conserves cfg st op h)

/-!
Helper lemmas for the drawdown claim (C6).
-/

lemma listMin_mem : ∀ (l : List ℚ), l ≠ [] → listMin l ∈ l
  | [], h => absurd rfl h
  | [x], _ => by simp [listMin]
  | x :: y :: rest, _ => by
    have ih := listMin_mem (y :: rest) (by simp)
    simp only [listMin]
    rcases le_total x (listMin (y :: rest)) with h | h
    · rw [min_eq_left h]
      exact List.mem_cons_self _ _
    · rw [min_eq_right h]
      exact List.mem_cons_of_mem _ ih

lemma listMin_le : ∀ (l : List ℚ) (x : ℚ), x ∈ l → listMin l ≤ x
  | [], x, hx => absurd hx (List.not_mem_nil x)
  | [y], x, hx => by
    simp only [List.mem_singleton] at hx
    simp [listMin, hx]
  | y :: z :: rest, x, hx => by
    simp only [listMin]
    rcases List.mem_cons.mp hx with rfl | h
    · exact min_le_left _ _
    · exact le_trans (min_le_right _ _) (listMin_le (z :: rest) x h)

lemma ddFrom_nonpos : ∀ (l : List ℚ) (m : ℚ), 0 < m → (∀ x ∈ l, 0 < x) →
    ∀ d ∈ ddFrom m l, d ≤ 0
  | [], _, _, _, d, hd => absurd hd (List.not_mem_nil d)
  | e :: rest, m, hm, hpos, d, hd => by
    have he : 0 < e := hpos e (List.mem_cons_self _ _)
    have hmax : 0 < max m e := lt_max_iff.mpr (Or.inl hm)
    simp only [ddFrom, List.mem_cons] at hd
    rcases hd with rfl | hd
    · apply div_nonpos_of_nonpos_of_nonneg
      · have := le_max_right m e
        linarith
      · linarith
    · exact ddFrom_nonpos rest (max m e) hmax
        (fun x hx => hpos x (List.mem_cons_of_mem _ hx)) d hd

lemma ddFrom_all_zero_iff : ∀ (l : List ℚ) (m : ℚ), 0 < m → (∀ x ∈ l, 0 < x) →
    ((∀ d ∈ ddFrom m l, d = 0) ↔ List.Chain (· ≤ ·) m l)
  | [], m, _, _ => by simp [ddFrom]
  | e :: rest, m, hm, hpos => by
    have he : 0 < e := hpos e (List.mem_cons_self _ _)
    simp only [ddFrom, List.mem_cons, List.chain_cons]
    by_cases hme : m ≤ e
    · rw [max_eq_right hme]
      have ih := ddFrom_all_zero_iff rest e he
        (fun x hx => hpos x (List.mem_cons_of_mem _ hx))
      constructor
      · intro hall
        refine ⟨hme, ih.mp ?_⟩
        intro d hd
        exact hall d (Or.inr hd)
      · rintro ⟨_, hchain⟩ d hd
        rcases hd with rfl | hd'
        · simp
        · exact (ih.mpr hchain) d hd'
    · have hlt : e < m := lt_of_not_le hme
      rw [max_eq_left (le_of_lt hlt)]
      constructor
      · intro hall
        exfalso
        have h0 := hall ((e - m) / m) (Or.inl rfl)
        have hne : (e - m) / m ≠ 0 := by
          apply div_ne_zero
          · intro hc
            apply absurd hc
            intro hc2
            linarith
          · intro hc
            linarith
        exact hne h0
      · rintro ⟨hcon, _⟩
        exact absurd hcon hme

lemma maxDrawdown_core (eqs : List ℚ) (hne : eqs ≠ [])
    (hpos : ∀ x ∈ eqs, 0 < x) :
    maxDrawdownPctOf eqs ≤ 0 ∧
      (maxDrawdownPctOf eqs = 0 ↔ List.Chain' (· ≤ ·) eqs) := by
  cases eqs with
  | nil => exact absurd rfl hne
  | cons e rest =>
    have he : 0 < e := hpos e (List.mem_cons_self _ _)
    have hdds_ne : ddFrom e (e :: rest) ≠ [] := by simp [ddFrom]
    have hmin_mem := listMin_mem (ddFrom e (e :: rest)) hdds_ne
    have hnonpos := ddFrom_nonpos (e :: rest) e he hpos
    have hmin_nonpos : listMin (ddFrom e (e :: rest)) ≤ 0 := hnonpos _ hmin_mem
    have hallzero := ddFrom_all_zero_iff (e :: rest) e he hpos
    have hunfold : maxDrawdownPctOf (e :: rest)
        = listMin (ddFrom e (e :: rest)) * 100 := rfl
    constructor
    · rw [hunfold]
      linarith
    · rw [hunfold]
      have h100 : listMin (ddFrom e (e :: rest)) * 100 = 0
          ↔ listMin (ddFrom e (e :: rest)) = 0 := by
        constructor <;> intro h <;> linarith
      have hzero_iff : listMin (ddFrom e (e :: rest)) = 0
          ↔ ∀ d ∈ ddFrom e (e :: rest), d = 0 := by
        constructor
        · intro h0 d hd
          have h1 := listMin_le (ddFrom e (e :: rest)) d hd
          have h2 := hnonpos d hd
          linarith
        · intro hall
          exact hall _ hmin_mem
      have hchain : List.Chain (· ≤ ·) e (e :: rest) ↔ List.Chain' (· ≤ ·) (e :: rest) := by
        rw [List.chain_cons]
        have : List.Chain' (· ≤ ·) (e :: rest) ↔ List.Chain (· ≤ ·) e rest := Iff.rfl
        rw [this]
        simp
      exact h100.trans (hzero_iff.trans (hallzero.trans hchain))

/-!
Helper lemmas for the exit-trigger claim (C7).
-/

lemma pyOrStr_not_truthy (x : Option String) (d : String)
    (h : truthyStr x = false) : pyOrStr x d = d := by
  cases x with
  | none => rfl
  | some s =>
    simp only [truthyStr, decide_eq_false_iff_not, not_not] at h
    simp [pyOrStr, h]

lemma exitCheckEntry_fst (checkExit : Position → OptionQuote → Int → Option String)
    (md : MarketData) (date : Int) (p : Position) (pr : Position × String)
    (h : exitCheckEntry checkExit md date p = some pr) : pr.1 = p := by
  unfold exitCheckEntry at h
  split at h
  · exact absurd h (by simp)
  · split at h
    · exact absurd h (by simp)
    · next q hq =>
      have h' : (if truthyStr (checkExit p q date) = true ∨ p.expiration ≤ date
          then some (p, pyOrStr (checkExit p q date) "expiration") else none)
          = some pr := h
      by_cases hc : truthyStr (checkExit p q date) = true ∨ p.expiration ≤ date
      · rw [if_pos hc] at h'
        injection h' with h2
        rw [← h2]
      · rw [if_neg hc] at h'
        exact absurd h' (by simp)

lemma exitCheckEntry_expired (checkExit : Position → OptionQuote → Int → Option String)
    (md : MarketData) (date : Int) (p : Position) (chain : List OptionQuote)
    (q : OptionQuote)
    (hl : List.lookup p.symbol md = some chain)
    (hq : findQuote chain p = some q)
    (hex : truthyStr (checkExit p q date) = false)
    (hexp : p.expiration ≤ date) :
    exitCheckEntry checkExit md date p = some (p, "expiration") := by
  simp only [exitCheckEntry, hl, hq]
  have hcond : truthyStr (checkExit p q date) = true ∨ p.expiration ≤ date := Or.inr hexp
  rw [if_pos hcond, pyOrStr_not_truthy _ _ hex]

lemma foldClose_closed_mono (cfg : BacktestConfig) (md : MarketData) (date : Int) :
    ∀ (l : List (Position × String)) (st : EngineState) (c : Position),
      c ∈ st.closed_trades →
      c ∈ ((l.foldl (fun s pr => close_position cfg md date pr.2 pr.1 s) st).closed_trades)
  | [], _, _, hc => hc
  | pr :: l, st, c, hc => by
    rw [List.foldl_cons]
    apply foldClose_closed_mono cfg md date l
    simp only [close_position]
    exact List.mem_append_left _ hc

lemma foldClose_mem_closed (cfg : BacktestConfig) (md : MarketData) (date : Int) :
    ∀ (l : List (Position × String)) (st : EngineState) (p : Position) (r : String),
      (p, r) ∈ l →
      closedTradeOf cfg md date r p
        ∈ ((l.foldl (fun s pr => close_position cfg md date pr.2 pr.1 s) st).closed_trades)
  | [], _, _, _, h => absurd h (List.not_mem_nil _)
  | pr :: l, st, p, r, h => by
    rw [List.foldl_cons]
    rcases List.mem_cons.mp h with heq | h'
    · rw [← heq]
      apply foldClose_closed_mono
      simp only [close_position]
      apply List.mem_append_right
      simp
    · exact foldClose_mem_closed cfg md date l _ p r h'

lemma foldClose_open_shrinks (cfg : BacktestConfig) (md : MarketData) (date : Int) :
    ∀ (l : List (Position × String)) (st : EngineState),
      ((l.foldl (fun s pr => close_position cfg md date pr.2 pr.1 s) st).open_positions).Sublist
        st.open_positions
  | [], _ => List.Sublist.refl _
  | pr :: l, st => by
    rw [List.foldl_cons]
    refine (foldClose_open_shrinks cfg md date l _).trans ?_
    simp only [close_position]
    exact List.erase_sublist _ _

lemma foldClose_not_mem_open (cfg : BacktestConfig) (md : MarketData) (date : Int)
    (l : List (Position × String)) (st : EngineState) (p : Position)
    (hp : p ∉ st.open_positions) :
    p ∉ ((l.foldl (fun s pr => close_position cfg md date pr.2 pr.1 s) st).open_positions) :=
  fun hmem => hp ((foldClose_open_shrinks cfg md date l st).subset hmem)

lemma foldClose_removes (cfg : BacktestConfig) (md : MarketData) (date : Int)
    (pos : Position) :
    ∀ (l : List (Position × String)) (st : EngineState),
      (∀ pr ∈ l, pr.1 = pos → pr.2 = "expiration") →
      (pos, "expiration") ∈ l →
      st.open_positions.count pos = 1 →
      pos ∉ ((l.foldl (fun s pr => close_position cfg md date pr.2 pr.1 s) st).open_positions)
  | [], _, _, hmem, _ => absurd hmem (List.not_mem_nil _)
  | pr :: l, st, hall, hmem, hcount => by
    rw [List.foldl_cons]
    by_cases hfst : pr.1 = pos
    · apply foldClose_not_mem_open
      apply List.count_eq_zero.mp
      simp only [close_position]
      rw [hfst, List.count_erase_self, hcount]
    · have hcount' : (close_position cfg md date pr.2 pr.1 st).open_positions.count pos = 1 := by
        simp only [close_position]
        rw [List.count_erase_of_ne (fun h => hfst h.symm), hcount]
      have hmem' : (pos, "expiration") ∈ l := by
        rcases List.mem_cons.mp hmem with heq | h
        · exact absurd (congrArg Prod.fst heq).symm hfst
        · exact h
      exact foldClose_removes cfg md date pos l _
        (fun q hq => hall q (List.mem_cons_of_mem _ hq)) hmem' hcount'

/-!
Helper lemmas for the position-sizing claim (C9).
-/

lemma entrySlippagePrice_pos (cfg : BacktestConfig) (ot : String) (price : ℚ)
    (hp : 0 < price) (hs0 : 0 ≤ cfg.slippage_pct) (hs1 : cfg.slippage_pct < 1) :
    0 < entrySlippagePrice cfg ot price := by
  unfold entrySlippagePrice
  split_ifs <;> nlinarith

lemma contract_cost_pos (sp comm : ℚ) (n : Int) (hsp : 0 < sp)
    (hcomm : 0 ≤ comm) (hn : 1 ≤ n) :
    0 < sp * 100 * (n : ℚ) + comm * (n : ℚ) := by
  have hn' : (1 : ℚ) ≤ (n : ℚ) := by exact_mod_cast hn
  nlinarith

/-!
Claim theorems.
-/

/-- C1 (amended): at every point of a simulation — after initialization and
after any sequence of `open_position` / `close_position` steps — the ledger
satisfies `current_capital + Σ(open position_cost) − Σ(closed profit_loss)
= initial_capital`.  (The claim's version with `+ Σ(closed profit_loss)` is
refuted by `c1_counterexample`.) -/
theorem c1_capital_conservation (cfg : BacktestConfig) (ops : List BTOp) :
    conservedCapital cfg (runOps cfg ops) :=
  foldOps_conserves cfg ops (initState cfg) (by simp [conservedCapital, initState])

/-- C1 counterexample: after opening the Scenario A position and closing it
at the Scenario B snapshot, `current_capital + Σ(open position_cost) +
Σ(closed profit_loss)` is `109370`, not the initial `100000` — the claim's
invariant (with the realized profit added rather than subtracted) fails at
this simulation point. -/
theorem c1_counterexample :
    stClosed.current_capital
        + (stClosed.open_positions.map Position.position_cost).sum
        + (stClosed.closed_trades.map Position.profit_loss).sum
      ≠ cfgA.initial_capital := by
  norm_num [stClosed, runOps, applyOp, open_position, close_position, initState, cfgA,
    sigA, mdA, entrySlippagePrice, exitSlippagePrice, exitBasePrice, proceedsOf,
    closedTradeOf, findQuote, pyTrunc, List.lookup, List.find?, List.erase, List.foldl]

/-- C2: the affordability recompute of `open_position` subtracts only one
commission (`int((capital − commission) / (price × 100))`) while the
position cost charges the commission per contract, so with a nonnegative
starting capital of `200.66`, full position sizing, commission `0.65`,
slippage `0.01` and a call priced `100/101`, the engine opens 2 contracts
costing `201.30` and leaves `current_capital = −0.64 < 0`, contradicting
the claim that `open_position` never drives capital negative. -/
theorem c2_negative_capital_evaluation :
    (0 : ℚ) ≤ (initState cfgX).current_capital
    ∧ (open_position cfgX sigX 0 (initState cfgX)).open_positions.map Position.contracts = [2]
    ∧ (open_position cfgX sigX 0 (initState cfgX)).current_capital = -16/25
    ∧ (open_position cfgX sigX 0 (initState cfgX)).current_capital < 0 := by
  norm_num [open_position, initState, cfgX, sigX, entrySlippagePrice, pyTrunc]

/-- C3 counterexample: with `initial_capital = 100000` and
`position_size_pct = 0.1`, the Scenario A call at price `2.00` is sized
`int(10000 / 200) = 50` contracts, not the 10 contracts the claim
states. -/
theorem c3_counterexample :
    stOpen.open_positions.map Position.contracts = [50]
    ∧ stOpen.open_positions.map Position.contracts ≠ [10] := by
  constructor <;>
    norm_num [stOpen, open_position, initState, cfgA, sigA, entrySlippagePrice, pyTrunc]

/-- C3 (amended): entry fills are `price × (1 + slippage_pct)` for calls
and `price × (1 − slippage_pct)` for puts; in Scenario A the engine sizes
50 contracts, fills at `2.02`, and records
`position_cost = 2.02×100×50 + 0.65×50 = 10132.50`, deducting exactly that
from capital. -/
theorem c3_entry_fill_amended :
    (∀ (cfg : BacktestConfig) (price : ℚ),
        entrySlippagePrice cfg ("call") price = price * (1 + cfg.slippage_pct)
        ∧ entrySlippagePrice cfg ("put") price = price * (1 - cfg.slippage_pct))
    ∧ stOpen.open_positions.map Position.contracts = [50]
    ∧ stOpen.open_positions.map Position.entry_price = [101/50]
    ∧ stOpen.open_positions.map Position.position_cost = [20265/2]
    ∧ stOpen.current_capital = cfgA.initial_capital - 20265/2 := by
  refine ⟨fun cfg price => ⟨rfl, by simp [entrySlippagePrice]⟩, ?_, ?_, ?_, ?_⟩ <;>
    norm_num [stOpen, open_position, initState, cfgA, sigA, entrySlippagePrice, pyTrunc]

/-- C4 counterexample: the position actually produced by Scenario A holds
50 contracts, so closing it at market `3.00` realizes a profit of `4685`,
not the `937` the claim states. -/
theorem c4_counterexample :
    stClosed.closed_trades.map Position.profit_loss = [4685]
    ∧ stClosed.closed_trades.map Position.profit_loss ≠ [937] := by
  constructor <;>
    norm_num [stClosed, runOps, applyOp, open_position, close_position, initState, cfgA,
      sigA, mdA, entrySlippagePrice, exitSlippagePrice, exitBasePrice, proceedsOf,
      closedTradeOf, findQuote, pyTrunc, List.lookup, List.find?, List.erase, List.foldl]

/-- C4 (amended): exit fills are `price × (1 − slippage_pct)` for call
sales and `price × (1 + slippage_pct)` for puts, with
`proceeds = fill×100×contracts − commission×contracts`,
`profit_loss = proceeds − position_cost` and
`profit_loss_pct = profit_loss/position_cost×100` (0 if
`position_cost ≤ 0`); the Scenario A position (50 contracts) closed at
market `3.00` fills at `2.97` with proceeds `14817.50`,
`profit_loss = 4685.00` and `profit_loss_pct = 187400/4053 ≈ 46.24%`. -/
theorem c4_exit_fill_amended :
    (∀ (cfg : BacktestConfig) (price : ℚ),
        exitSlippagePrice cfg ("call") price = price * (1 - cfg.slippage_pct)
        ∧ exitSlippagePrice cfg ("put") price = price * (1 + cfg.slippage_pct))
    ∧ (∀ (cfg : BacktestConfig) (p : Position) (fill : ℚ),
        proceedsOf cfg p fill
          = fill * 100 * (p.contracts : ℚ)
            - cfg.commission_per_contract * (p.contracts : ℚ))
    ∧ (∀ (cfg : BacktestConfig) (md : MarketData) (date : Int) (reason : String)
        (p : Position),
        (closedTradeOf cfg md date reason p).profit_loss
          = proceedsOf cfg p (exitSlippagePrice cfg p.option_type (exitBasePrice md p))
            - p.position_cost
        ∧ (closedTradeOf cfg md date reason p).profit_loss_pct
          = (if p.position_cost > 0
              then (closedTradeOf cfg md date reason p).profit_loss
                / p.position_cost * 100
              else 0))
    ∧ stClosed.closed_trades.map Position.exit_price = [some (297/100)]
    ∧ stClosed.closed_trades.map Position.profit_loss = [4685]
    ∧ stClosed.closed_trades.map Position.profit_loss_pct = [187400/4053]
    ∧ stClosed.current_capital = 104685 := by
  refine ⟨fun cfg price => ⟨rfl, by simp [exitSlippagePrice]⟩,
    fun cfg p fill => rfl, fun cfg md date reason p => ⟨rfl, rfl⟩, ?_, ?_, ?_, ?_⟩ <;>
    norm_num [stClosed, runOps, applyOp, open_position, close_position, initState, cfgA,
      sigA, mdA, entrySlippagePrice, exitSlippagePrice, exitBasePrice, proceedsOf,
      closedTradeOf, findQuote, pyTrunc, List.lookup, List.find?, List.erase, List.foldl]

lemma PFloat_fin_ne_nan (q : ℚ) : PFloat.fin q ≠ PFloat.nan := nofun

lemma PFloat_fin_ne_pinf (q : ℚ) : PFloat.fin q ≠ PFloat.pinf := nofun

lemma PFloat_fin_ne_ninf (q : ℚ) : PFloat.fin q ≠ PFloat.ninf := nofun

lemma PFloat_nan_ne_fin (q : ℚ) : PFloat.nan ≠ PFloat.fin q := nofun

lemma PFloat_pinf_ne_fin (q : ℚ) : PFloat.pinf ≠ PFloat.fin q := nofun

lemma PFloat_ninf_ne_fin (q : ℚ) : PFloat.ninf ≠ PFloat.fin q := nofun

/-- C5: with fewer than 2 equity points `sharpe_ratio` and `sortino_ratio`
are exactly 0, and `sortino_ratio` is 0 on zero-variance curves too — but
for a constant curve of 2 (or 3) points the Sharpe computation divides by a
NaN (one sample) or zero (≥ 2 equal samples) standard deviation and
returns NaN, and for a zero-variance curve with non-zero mean return it
returns ±infinity, contradicting the claim that it is exactly 0. -/
theorem c5_sharpe_zero_variance_nan :
    (calculate_performance_metrics 100000 100000 curveOnePt []).sharpe_ratio_class
        = FloatClass.zero
    ∧ (calculate_performance_metrics 100000 100000 curveOnePt []).sortino_ratio_class
        = FloatClass.zero
    ∧ (calculate_performance_metrics 100000 100000 curveConst2 []).sharpe_ratio_class
        = FloatClass.nan
    ∧ (calculate_performance_metrics 100000 100000 curveConst3 []).sharpe_ratio_class
        = FloatClass.nan
    ∧ (calculate_performance_metrics 100000 100000 curveGeom []).sharpe_ratio_class
        = FloatClass.inf
    ∧ (calculate_performance_metrics 100000 100000 curveConst2 []).sortino_ratio_class
        = FloatClass.zero
    ∧ (calculate_performance_metrics 100000 100000 curveConst3 []).sortino_ratio_class
        = FloatClass.zero := by
  refine ⟨?_, ?_, ?_, ?_, ?_, ?_, ?_⟩ <;>
    norm_num [calculate_performance_metrics, sharpeRatioClass, sortinoRatioClass,
      dailyReturnsOf, pctChangeF, stdClassOf, meanPF, PFloat.isNeg, PFloat.isNonFin,
      PFloat.toQ, curveOnePt, curveConst2, curveConst3, curveGeom, eqPt,
      PFloat_fin_ne_nan, PFloat_fin_ne_pinf, PFloat_fin_ne_ninf,
      PFloat_nan_ne_fin, PFloat_pinf_ne_fin, PFloat_ninf_ne_fin,
      List.filterMap_cons, List.filterMap_nil]

/-- C6: for a non-empty equity curve with positive `total_equity` values,
`max_drawdown_pct` is `≤ 0`, and it is `0` exactly when the sequence of
`total_equity` values is non-decreasing. -/
theorem c6_max_drawdown (init fin : ℚ) (curve : List EquityPoint)
    (trades : List Position) (hne : curve ≠ [])
    (hpos : ∀ pt ∈ curve, 0 < pt.total_equity) :
    (calculate_performance_metrics init fin curve trades).max_drawdown_pct ≤ 0
    ∧ ((calculate_performance_metrics init fin curve trades).max_drawdown_pct = 0
        ↔ List.Chain' (· ≤ ·) (curve.map EquityPoint.total_equity)) := by
  have hproj : (calculate_performance_metrics init fin curve trades).max_drawdown_pct
      = maxDrawdownPctOf (curve.map EquityPoint.total_equity) := rfl
  rw [hproj]
  apply maxDrawdown_core
  · simpa using hne
  · intro x hx
    obtain ⟨pt, hpt, rfl⟩ := List.mem_map.mp hx
    exact hpos pt hpt

/-- C6 witness: the two-point falling curve `100, 90` has positive equity
values; its drawdown is nonpositive and zero exactly when the curve is
non-decreasing (which it is not). -/
theorem c6_max_drawdown_witness :
    ([eqPt 0 100, eqPt 1 90] ≠ ([] : List EquityPoint))
    ∧ (∀ pt ∈ [eqPt 0 100, eqPt 1 90], 0 < pt.total_equity)
    ∧ ((calculate_performance_metrics 100000 99000 [eqPt 0 100, eqPt 1 90] []).max_drawdown_pct ≤ 0
        ∧ ((calculate_performance_metrics 100000 99000 [eqPt 0 100, eqPt 1 90] []).max_drawdown_pct = 0
            ↔ List.Chain' (· ≤ ·) ([eqPt 0 100, eqPt 1 90].map EquityPoint.total_equity))) :=
  ⟨by simp, by norm_num [eqPt],
    c6_max_drawdown 100000 99000 [eqPt 0 100, eqPt 1 90] [] (by simp) (by norm_num [eqPt])⟩

/-- C7 (amended): an open position whose matching contract appears in the
day's snapshot, whose expiration is `≤` the current date, and for which
the strategy's exit criterion does not fire (returns `None` or an empty
string) is closed by the daily management step with reason
`expiration`: its closed-trade record lands in `closed_trades` and it
leaves `open_positions`.  (The claim as stated, without the
data-availability condition, is refuted by `c7_counterexample`: a
quote-less expired position is carried forward unchanged.) -/
theorem c7_expiration_close
    (checkExit : Position → OptionQuote → Int → Option String)
    (cfg : BacktestConfig) (md : MarketData) (date : Int) (st : EngineState)
    (pos : Position) (chain : List OptionQuote) (q : OptionQuote)
    (hcount : st.open_positions.count pos = 1)
    (hl : List.lookup pos.symbol md = some chain)
    (hq : findQuote chain pos = some q)
    (hex : truthyStr (checkExit pos q date) = false)
    (hexp : pos.expiration ≤ date) :
    closedTradeOf cfg md date ("expiration") pos
        ∈ (manage_existing_positions checkExit cfg md date st).closed_trades
      ∧ pos ∉ (manage_existing_positions checkExit cfg md date st).open_positions := by
  have hmem_open : pos ∈ st.open_positions := by
    apply List.count_pos_iff.mp
    omega
  have hentry := exitCheckEntry_expired checkExit md date pos chain q hl hq hex hexp
  have hmem_l : (pos, "expiration")
      ∈ st.open_positions.filterMap (exitCheckEntry checkExit md date) :=
    List.mem_filterMap.mpr ⟨pos, hmem_open, hentry⟩
  have hall : ∀ pr ∈ st.open_positions.filterMap (exitCheckEntry checkExit md date),
      pr.1 = pos → pr.2 = "expiration" := by
    intro pr hpr hfst
    obtain ⟨a, _, hfa⟩ := List.mem_filterMap.mp hpr
    have hfa1 : pr.1 = a := exitCheckEntry_fst checkExit md date a pr hfa
    have ha : a = pos := by rw [← hfa1, hfst]
    rw [ha, hentry] at hfa
    injection hfa with h2
    rw [← h2]
  simp only [manage_existing_positions]
  exact ⟨foldClose_mem_closed cfg md date _ st pos ("expiration") hmem_l,
    foldClose_removes cfg md date pos _ st hall hmem_l hcount⟩

/-- C7 witness: an expired position with a matching quote in the snapshot
and a never-firing strategy exit is closed with reason `expiration`. -/
theorem c7_expiration_close_witness :
    stE.open_positions.count posE = 1
    ∧ List.lookup posE.symbol mdE = some [quoteE]
    ∧ findQuote [quoteE] posE = some quoteE
    ∧ truthyStr ((fun _ _ _ => none) posE quoteE 1) = false
    ∧ posE.expiration ≤ 1
    ∧ (closedTradeOf cfgA mdE 1 ("expiration") posE
        ∈ (manage_existing_positions (fun _ _ _ => none) cfgA mdE 1 stE).closed_trades
      ∧ posE ∉ (manage_existing_positions (fun _ _ _ => none) cfgA mdE 1 stE).open_positions) :=
  ⟨by simp [stE], by simp [mdE, posE], by simp [findQuote, quoteE, posE], rfl,
    by norm_num [posE],
    c7_expiration_close (fun _ _ _ => none) cfgA mdE 1 stE posE [quoteE] quoteE
      (by simp [stE]) (by simp [mdE, posE]) (by simp [findQuote, quoteE, posE]) rfl
      (by norm_num [posE])⟩

/-- C7 counterexample: `posE` is expired and the strategy never fires, yet
with a snapshot that lacks its contract the management step closes
nothing — the position stays open, falsifying the claim in the absence of
market data. -/
theorem c7_counterexample :
    posE.expiration ≤ 1
    ∧ (manage_existing_positions (fun _ _ _ => none) cfgA [] 1 stE).closed_trades = []
    ∧ posE ∈ (manage_existing_positions (fun _ _ _ => none) cfgA [] 1 stE).open_positions := by
  refine ⟨by norm_num [posE], ?_, ?_⟩ <;>
    simp [manage_existing_positions, exitCheckEntry, stE, posE]

/-- C8: on the closed-trade list with `profit_loss` values
`[+100, −50, −20]` (in close order) the metrics report one winning trade,
`win_rate = 100/3 %` (which prints as 33.33%), `max_consecutive_losses =
2`, and `profit_factor = 100/70 = 10/7`. -/
theorem c8_scenario_d :
    (calculate_performance_metrics 100000 100000 [] tradesD).winning_trades = 1
    ∧ (calculate_performance_metrics 100000 100000 [] tradesD).win_rate = 100/3
    ∧ ⌊(calculate_performance_metrics 100000 100000 [] tradesD).win_rate * 100⌋ = 3333
    ∧ (calculate_performance_metrics 100000 100000 [] tradesD).max_consecutive_losses = 2
    ∧ (calculate_performance_metrics 100000 100000 [] tradesD).profit_factor = some (10/7) := by
  refine ⟨?_, ?_, ?_, ?_, ?_⟩ <;>
    norm_num [calculate_performance_metrics, tradesD, scenarioTrade,
      max_consecutive_count, List.filter, List.foldl]

/-- C9: with a positive signal price, slippage in `[0, 1)` and a
nonnegative commission, `open_position` either leaves the state entirely
unchanged (the rejection no-op) or appends exactly one position holding at
least one contract with a strictly positive `position_cost`, leaving
`closed_trades` unchanged and deducting exactly that cost from capital. -/
theorem c9_ledger_invariant (cfg : BacktestConfig) (sig : Signal) (date : Int)
    (st : EngineState) (hp : 0 < sig.price) (hs0 : 0 ≤ cfg.slippage_pct)
    (hs1 : cfg.slippage_pct < 1) (hc : 0 ≤ cfg.commission_per_contract) :
    open_position cfg sig date st = st
    ∨ ∃ p : Position,
        (open_position cfg sig date st).open_positions = st.open_positions ++ [p]
        ∧ 1 ≤ p.contracts
        ∧ 0 < p.position_cost
        ∧ (open_position cfg sig date st).closed_trades = st.closed_trades
        ∧ (open_position cfg sig date st).current_capital
            = st.current_capital - p.position_cost := by
  have hsp := entrySlippagePrice_pos cfg sig.option_type sig.price hp hs0 hs1
  simp only [open_position]
  split_ifs with h1 h2 h3
  · exact Or.inl rfl
  · exact Or.inl rfl
  · exact Or.inr ⟨_, rfl, Int.not_lt.mp h3,
      contract_cost_pos _ _ _ hsp hc (Int.not_lt.mp h3), rfl, rfl⟩
  · exact Or.inr ⟨_, rfl, Int.not_lt.mp h1,
      contract_cost_pos _ _ _ hsp hc (Int.not_lt.mp h1), rfl, rfl⟩

/-- C9 witness: the Scenario A signal satisfies the hypotheses and
`open_position` behaves as the invariant states. -/
theorem c9_ledger_invariant_witness :
    (0 : ℚ) < sigA.price ∧ 0 ≤ cfgA.slippage_pct ∧ cfgA.slippage_pct < 1
    ∧ 0 ≤ cfgA.commission_per_contract
    ∧ (open_position cfgA sigA 0 (initState cfgA) = initState cfgA
        ∨ ∃ p : Position,
            (open_position cfgA sigA 0 (initState cfgA)).open_positions
                = (initState cfgA).open_positions ++ [p]
            ∧ 1 ≤ p.contracts
            ∧ 0 < p.position_cost
            ∧ (open_position cfgA sigA 0 (initState cfgA)).closed_trades
                = (initState cfgA).closed_trades
            ∧ (open_position cfgA sigA 0 (initState cfgA)).current_capital
                = (initState cfgA).current_capital - p.position_cost) :=
  ⟨by norm_num [sigA], by norm_num [cfgA], by norm_num [cfgA], by norm_num [cfgA],
    c9_ledger_invariant cfgA sigA 0 (initState cfgA) (by norm_num [sigA])
      (by norm_num [cfgA]) (by norm_num [cfgA]) (by norm_num [cfgA])⟩

/-- C10: when the day's snapshot contains the position's matching contract
but the quote's `last` is 0 or absent and it has no `mid`, the exit is
priced from 0 — `close_position` credits `st.current_capital −
commission × contracts` (proceeds are exactly minus the commission, hence
negative whenever the commission is positive and at least one contract is
held) — whereas the last-known-price fallback applies exactly when the
symbol's chain is missing or the contract is absent from it. -/
theorem c10_zero_last_exit_price (cfg : BacktestConfig) (md : MarketData)
    (date : Int) (reason : String) (p : Position) (st : EngineState)
    (chain : List OptionQuote) (q : OptionQuote)
    (hl : List.lookup p.symbol md = some chain)
    (hq : findQuote chain p = some q)
    (hlast : (q.last).getD 0 = 0)
    (hmid : q.mid = none) :
    exitBasePrice md p = 0
    ∧ (close_position cfg md date reason p st).current_capital
        = st.current_capital - cfg.commission_per_contract * p.contracts
    ∧ (0 < cfg.commission_per_contract → 1 ≤ p.contracts →
        proceedsOf cfg p (exitSlippagePrice cfg p.option_type (exitBasePrice md p)) < 0)
    ∧ (∀ p' : Position, List.lookup p'.symbol md = none →
        exitBasePrice md p' = p'.current_price)
    ∧ (∀ (p' : Position) (chain' : List OptionQuote),
        List.lookup p'.symbol md = some chain' → findQuote chain' p' = none →
        exitBasePrice md p' = p'.current_price) := by
  have hbase : exitBasePrice md p = 0 := by
    simp only [exitBasePrice, hl, hq, hlast, hmid]
    simp
  have hfill : exitSlippagePrice cfg p.option_type (exitBasePrice md p) = 0 := by
    rw [hbase]
    unfold exitSlippagePrice
    split_ifs <;> ring
  refine ⟨hbase, ?_, ?_, ?_, ?_⟩
  · simp only [close_position]
    rw [hfill]
    simp only [proceedsOf]
    ring
  · intro hcomm hcontract
    rw [hfill]
    simp only [proceedsOf]
    have h1 : (1 : ℚ) ≤ (p.contracts : ℚ) := by exact_mod_cast hcontract
    nlinarith
  · intro p' h
    simp only [exitBasePrice, h]
  · intro p' chain' h1 h2
    simp only [exitBasePrice, h1, h2]

/-- C10 witness: closing `posE` against a snapshot whose matching quote
has `last = 0` and no `mid` prices the exit at 0 and debits exactly the
commission. -/
theorem c10_zero_last_exit_price_witness :
    List.lookup posE.symbol mdZeroLast = some [quoteZeroLast]
    ∧ findQuote [quoteZeroLast] posE = some quoteZeroLast
    ∧ (quoteZeroLast.last).getD 0 = 0
    ∧ quoteZeroLast.mid = none
    ∧ (exitBasePrice mdZeroLast posE = 0
        ∧ (close_position cfgA mdZeroLast 1 ("expiration") posE stE).current_capital
            = stE.current_capital - cfgA.commission_per_contract * posE.contracts
        ∧ (0 < cfgA.commission_per_contract → 1 ≤ posE.contracts →
            proceedsOf cfgA posE
              (exitSlippagePrice cfgA posE.option_type (exitBasePrice mdZeroLast posE)) < 0)
        ∧ (∀ p' : Position, List.lookup p'.symbol mdZeroLast = none →
            exitBasePrice mdZeroLast p' = p'.current_price)
        ∧ (∀ (p' : Position) (chain' : List OptionQuote),
            List.lookup p'.symbol mdZeroLast = some chain' → findQuote chain' p' = none →
            exitBasePrice mdZeroLast p' = p'.current_price)) :=
  ⟨by simp [mdZeroLast, posE], by simp [findQuote, quoteZeroLast, posE],
    by simp [quoteZeroLast], rfl,
    c10_zero_last_exit_price cfgA mdZeroLast 1 ("expiration") posE stE [quoteZeroLast]
      quoteZeroLast (by simp [mdZeroLast, posE]) (by simp [findQuote, quoteZeroLast, posE])
      (by simp [quoteZeroLast]) rfl⟩
